import Mathlib

/-!
Verification development for the durable photo-collection store
(src/lib/server/db.ts, src/lib/server/azure-storage.ts and the API route
handlers of the repository).

The TypeScript source is shallowly embedded: pure string manipulation is
translated function-by-function, the mutable module state of db.ts
(photosCache, photoIdCounter, commentIdCounter, cacheInitialized) becomes an
explicit state record threaded through the operations, and network I/O
against Azure Blob Storage is represented by an explicit trace of blob
operations together with an environment that fixes the outcome of each
remote call (fetch result of the index blob, success or failure of the
uploads).  Timestamps (ISO strings produced by new Date().toISOString() and
compared through new Date(s).getTime()) are abstracted to natural numbers;
raw image bytes (Buffer.from(base64)) are abstracted by carrying the base64
body itself, since no operation inspects the bytes.
-/

namespace PhotoApp

/-! ## JavaScript primitives used by the source -/

/-- Splitting loop of JS `s.split(sep)` for a non-empty separator, over
character lists: at each position, either the separator matches (emit the
piece accumulated so far, skip the separator) or one character is consumed.
The fuel argument (instantiated with the list length) makes the recursion
structural, so concrete instances compute by kernel reduction. -/
def jsSplitAux (sep : List Char) : Nat → List Char → List Char → List (List Char)
  | _, acc, [] => [acc.reverse]
  | 0, acc, l => [acc.reverse ++ l]
  | fuel + 1, acc, c :: cs =>
    if sep.isPrefixOf (c :: cs) then
      acc.reverse :: jsSplitAux sep fuel [] ((c :: cs).drop sep.length)
    else
      jsSplitAux sep fuel (c :: acc) cs

/-- JS `s.split(sep)` for the non-empty separators used in the source. -/
def jsSplit (s sep : String) : List String :=
  (jsSplitAux sep.data s.data.length [] s.data).map String.mk

/-- JS `s.split(sep)[i]` followed by template interpolation: an out-of-range
index yields `undefined`, which stringifies to "undefined" inside a template
literal. -/
def jsSplitIdx (s sep : String) (i : Nat) : String :=
  (jsSplit s sep).getD i "undefined"

/-- JS `s.includes(pat)` for the non-empty patterns used in the source:
the pattern occurs iff splitting on it produces more than one piece. -/
def jsIncludes (s pat : String) : Bool :=
  (jsSplit s pat).length > 1

/-- Value of a decimal digit character. -/
def digitVal (c : Char) : Nat := c.toNat - 48

/-- Parse a maximal run of leading decimal digits, accumulating into `acc`
(the core loop of JS `parseInt` after sign handling). -/
def parseDigitsAcc (acc : Nat) : List Char → Nat
  | [] => acc
  | c :: cs => if c.isDigit then parseDigitsAcc (acc * 10 + digitVal c) cs else acc

/-- JS `parseInt(s) || 0` as used in db.ts: skip leading whitespace, read an
optional sign, then a maximal run of decimal digits; a missing digit run
gives NaN and `|| 0` turns NaN (and -0) into 0.  (The hexadecimal `0x`
prefix of `parseInt` is irrelevant for the decimal ids handled here.) -/
def jsParseIntOr0 (s : String) : Int :=
  match s.data.dropWhile Char.isWhitespace with
  | [] => 0
  | c :: cs =>
    if c = '-' then -(parseDigitsAcc 0 cs : Int)
    else if c = '+' then (parseDigitsAcc 0 cs : Int)
    else (parseDigitsAcc 0 (c :: cs) : Int)

/-- JS `Math.max(...l)` under the guard `l.length > 0` used in the source;
the value on `[]` (JS -Infinity) is never reached and is fixed arbitrarily. -/
def listMaxInt : List Int → Int
  | [] => 0
  | x :: xs => xs.foldl max x

/-- JS `l.slice(offset, offset + limit)` for natural offsets. -/
def jsSlice {α : Type} (l : List α) (offset limit : Nat) : List α :=
  (l.drop offset).take limit

/-- Replace the first element satisfying `pred` (JS: mutate the object
returned by `Array.prototype.find`). -/
def updateFirst {α : Type} (pred : α → Bool) (f : α → α) : List α → List α
  | [] => []
  | x :: xs => if pred x then f x :: xs else x :: updateFirst pred f xs

/-- Remove the first element satisfying `pred`
(JS: `findIndex` followed by `splice(index, 1)`). -/
def removeFirst {α : Type} (pred : α → Bool) : List α → List α
  | [] => []
  | x :: xs => if pred x then xs else x :: removeFirst pred xs

/-! ## Data model (src/lib/types/index.ts) -/

/-- Comment record.  `createdAt` abstracts the ISO timestamp string by the
numeric time it denotes. -/
structure Comment where
  id : String
  photoId : String
  userId : String
  username : String
  content : String
  createdAt : Nat
deriving Repr, DecidableEq

/-- Photo record.  `description` is the optional field of the interface;
`createdAt` abstracts the ISO timestamp string by the numeric time. -/
structure Photo where
  id : String
  userId : String
  username : String
  imageUrl : String
  title : String
  description : Option String
  createdAt : Nat
  comments : List Comment
deriving Repr, DecidableEq

/-! ## Snapshot codec (azure-storage.ts) -/

/-- getExtensionFromContentType from azure-storage.ts: fixed lookup table
with fallback "jpg". -/
def getExtensionFromContentType (contentType : String) : String :=
  if contentType = "image/jpeg" then "jpg"
  else if contentType = "image/jpg" then "jpg"
  else if contentType = "image/png" then "png"
  else if contentType = "image/gif" then "gif"
  else if contentType = "image/webp" then "webp"
  else "jpg"

/-- Characters up to (excluding) the first semicolon, or `none` when no
semicolon follows. -/
def takeUntilSemi : List Char → Option (List Char)
  | [] => none
  | c :: cs => if c = ';' then some [] else (takeUntilSemi cs).map (c :: ·)

/-- First match group of the regex `:(.*?);` — the characters strictly
between the first colon that is followed by a semicolon and the next
semicolon after it. -/
def matchColonSemi : List Char → Option (List Char)
  | [] => none
  | c :: cs =>
    if c = ':' then
      match takeUntilSemi cs with
      | some mid => some mid
      | none => matchColonSemi cs
    else matchColonSemi cs

/-- Content type extracted by dataUrlToArrayBuffer:
`parts[0].match(/:(.*?);/)?.[1] || 'image/jpeg'` — a failed match and an
empty capture group (both falsy) default to image/jpeg. -/
def dataUrlContentType (dataUrl : String) : String :=
  let part0 := jsSplitIdx dataUrl "," 0
  match matchColonSemi part0.data with
  | some mid => if mid.isEmpty then "image/jpeg" else String.mk mid
  | none => "image/jpeg"

/-- Result of dataUrlToArrayBuffer.  The decoded bytes are abstracted by the
base64 body (`parts[1]`), which determines them. -/
structure DecodedImage where
  base64 : String
  contentType : String
deriving Repr, DecidableEq

/-- dataUrlToArrayBuffer from azure-storage.ts. -/
def dataUrlToArrayBuffer (dataUrl : String) : DecodedImage :=
  { base64 := jsSplitIdx dataUrl "," 1
    contentType := dataUrlContentType dataUrl }

/-! ## Blob transport model (azure-storage.ts)

Network I/O is represented by traces of blob operations.  The JSON
serialization performed by savePhotosIndex / saveCommentsIndex
(`JSON.stringify`) is abstracted by carrying the serialized collection
itself as the blob content (the codec is injective and never decoded again
inside the verified core). -/

/-- Content of an uploaded blob. -/
inductive BlobContent where
  | photosIndex (photos : List Photo)
  | commentsIndex (comments : List Comment)
  | image (base64 : String) (contentType : String)
deriving Repr, DecidableEq

/-- One transport request, tagged with the container capability URL and the
blob name it addresses. -/
inductive BlobOp where
  | put (containerUrl blobName : String) (content : BlobContent)
  | get (containerUrl blobName : String)
  | del (containerUrl blobName : String)
deriving Repr, DecidableEq

/-- Request URL built by uploadBlob:
``${containerUrl.split('?')[0]}/${blobName}?${containerUrl.split('?')[1]}``. -/
def uploadBlobRequestUrl (containerUrl blobName : String) : String :=
  jsSplitIdx containerUrl "?" 0 ++ "/" ++ blobName ++ "?" ++ jsSplitIdx containerUrl "?" 1

/-- The `url` field of uploadBlob's result: `blobUrl.split('?')[0]`, i.e. the
public URL with the capability token stripped. -/
def uploadBlobResultUrl (containerUrl blobName : String) : String :=
  jsSplitIdx (uploadBlobRequestUrl containerUrl blobName) "?" 0

/-- Blob name chosen by uploadPhoto:
``photo-${photoId}.${getExtensionFromContentType(contentType)}``. -/
def photoBlobName (photoId contentType : String) : String :=
  "photo-" ++ photoId ++ "." ++ getExtensionFromContentType contentType

/-- URL returned by uploadPhoto (the result url of uploadBlob against the
photo container). -/
def uploadPhotoUrl (photoStorageUrl photoId contentType : String) : String :=
  uploadBlobResultUrl photoStorageUrl (photoBlobName photoId contentType)

/-- getPhotoBlobUrl, the helper the repository documents in
URL_FIX_SUMMARY.md and imports into db.ts (its body is quoted verbatim in
the repository's documentation):
``${AZURE_PHOTO_STORAGE_URL.split('?')[0]}/${blobName}?${AZURE_PHOTO_STORAGE_URL.split('?')[1]}``. -/
def getPhotoBlobUrl (photoStorageUrl blobName : String) : String :=
  jsSplitIdx photoStorageUrl "?" 0 ++ "/" ++ blobName ++ "?" ++
    jsSplitIdx photoStorageUrl "?" 1

/-- Transport request issued by deleteBlob from azure-storage.ts (declared
by the source but invoked by no store mutation). -/
def deleteBlobOp (containerUrl blobName : String) : BlobOp :=
  BlobOp.del containerUrl blobName

/-- Remote object store: a finite map from (container, blob name) to
content, represented as a function. -/
def RemoteStore : Type := String × String → Option BlobContent

/-- Effect of one transport request on the remote store (PUT overwrites or
creates, DELETE removes, GET reads). -/
def applyOp (r : RemoteStore) : BlobOp → RemoteStore
  | BlobOp.put c n content => fun k => if k = (c, n) then some content else r k
  | BlobOp.get _ _ => r
  | BlobOp.del c n => fun k => if k = (c, n) then none else r k

/-- Effect of a trace of transport requests, applied in order. -/
def applyTrace (r : RemoteStore) (ops : List BlobOp) : RemoteStore :=
  ops.foldl applyOp r

/-! ## Durable collection store state (db.ts module state) -/

/-- The mutable module-level state of db.ts. -/
structure DBState where
  photosCache : List Photo
  photoIdCounter : Int
  commentIdCounter : Int
  cacheInitialized : Bool
deriving Repr, DecidableEq

/-- Initial module state: empty cache, photoIdCounter = 1,
commentIdCounter = 100, not initialized. -/
def initialState : DBState :=
  { photosCache := [], photoIdCounter := 1, commentIdCounter := 100
    cacheInitialized := false }

/-- Outcome of the remote fetch performed by getPhotosIndex: the decoded
index, a 404 on the index blob, or any other transport/parse failure. -/
inductive FetchIndexResult where
  | ok (photos : List Photo)
  | notFound
  | transportError
deriving Repr, DecidableEq

/-- getPhotosIndex from azure-storage.ts: `try { getBlob; JSON.parse } catch
{ return [] }` — every failure, the missing-index 404 included, yields the
empty collection. -/
def getPhotosIndex : FetchIndexResult → List Photo
  | FetchIndexResult.ok photos => photos
  | FetchIndexResult.notFound => []
  | FetchIndexResult.transportError => []

/-- The URL-refresh step of initializeCache: when the stored imageUrl has
the Azure photo-container shape, recover the blob name
(`imageUrl.split('/photo/')[1].split('?')[0]`) and recompute the URL from
the currently configured capability root. -/
def refreshPhotoUrl (photoStorageUrl : String) (photo : Photo) : Photo :=
  if photo.imageUrl ≠ "" ∧ jsIncludes photo.imageUrl "blob.core.windows.net/photo/" then
    let blobName := jsSplitIdx (jsSplitIdx photo.imageUrl "/photo/" 1) "?" 0
    { photo with imageUrl := getPhotoBlobUrl photoStorageUrl blobName }
  else photo

/-- initializeCache from db.ts.  The fetch cannot raise (getPhotosIndex
swallows every failure), so the catch branch of the source — which would
likewise leave an empty cache and set cacheInitialized — is unreachable. -/
def initializeCache (photoStorageUrl : String) (fetch : FetchIndexResult)
    (s : DBState) : DBState :=
  if s.cacheInitialized then s
  else
    let cache := (getPhotosIndex fetch).map (refreshPhotoUrl photoStorageUrl)
    let s1 :=
      if cache.length > 0 then
        let maxPhotoId := listMaxInt (cache.map (fun p => jsParseIntOr0 p.id))
        let allComments := cache.flatMap (fun p => p.comments)
        let cc :=
          if allComments.length > 0 then
            listMaxInt (allComments.map (fun c => jsParseIntOr0 c.id)) + 1
          else s.commentIdCounter
        { s with photosCache := cache, photoIdCounter := maxPhotoId + 1
                 commentIdCounter := cc }
      else { s with photosCache := cache }
    { s1 with cacheInitialized := true }

/-- Environment fixing the outcome of every remote interaction of one
operation: the configured capability roots, the result of the index fetch,
whether the image PUT fails, whether the index-rewrite PUT of syncToAzure
fails, and the current time. -/
structure Env where
  photoStorageUrl : String
  commentStorageUrl : String
  fetchIndex : FetchIndexResult
  imageUploadFails : Bool
  syncFails : Bool
  now : Nat
deriving Repr, DecidableEq

/-- initializeCache applied with the environment's configuration. -/
def initCacheEnv (env : Env) (s : DBState) : DBState :=
  initializeCache env.photoStorageUrl env.fetchIndex s

/-- The flat comment index computed inside syncToAzure: every photo's
comments, each re-tagged with its parent photo id. -/
def flattenComments (cache : List Photo) : List Comment :=
  cache.flatMap (fun p => p.comments.map (fun c => { c with photoId := p.id }))

/-- Transport requests issued by one syncToAzure call: the photo-index PUT,
then — only if it succeeded — the comment-index PUT. -/
def syncToAzureOps (env : Env) (cache : List Photo) : List BlobOp :=
  if env.syncFails then
    [BlobOp.put env.photoStorageUrl "photos-index.json" (BlobContent.photosIndex cache)]
  else
    [BlobOp.put env.photoStorageUrl "photos-index.json" (BlobContent.photosIndex cache),
     BlobOp.put env.commentStorageUrl "comments-index.json"
       (BlobContent.commentsIndex (flattenComments cache))]

/-- Failures surfaced by the store operations. -/
inductive DbError where
  | uploadFailed
  | syncFailed
deriving Repr, DecidableEq

/-- Outcome of one store operation: the returned value or raised error, the
module state afterwards, and the trace of transport requests issued. -/
structure OpResult (α : Type) where
  result : Except DbError α
  state : DBState
  trace : List BlobOp
deriving Repr

/-- The sort comparator of getPhotos,
`(a, b) => new Date(b.createdAt).getTime() - new Date(a.createdAt).getTime()`,
as the boolean relation "a may precede b": comparator value ≤ 0. -/
def photoLe (a b : Photo) : Bool := b.createdAt ≤ a.createdAt

/-- getPhotos from db.ts: initialize, sort the cache in place by createdAt
descending (JS sort is stable), slice `[offset, offset+limit)`.  The state
keeps the re-ordered cache, mirroring the in-place sort. -/
def getPhotos (env : Env) (s : DBState) (offset limit : Nat) :
    List Photo × DBState :=
  let s := initCacheEnv env s
  let sorted := s.photosCache.mergeSort photoLe
  (jsSlice sorted offset limit, { s with photosCache := sorted })

/-- getPhotoById from db.ts: initialize, then linear scan. -/
def getPhotoById (env : Env) (s : DBState) (id : String) :
    Option Photo × DBState :=
  let s := initCacheEnv env s
  (s.photosCache.find? (fun p => p.id == id), s)

/-- createPhoto from db.ts: initialize, allocate the id, decode and upload
the image (a failed upload raises after the counter was already bumped),
prepend the new photo, then fire the background sync whose failure is
swallowed. -/
def createPhoto (env : Env) (s : DBState) (userId username title imageDataUrl : String)
    (description : Option String) : OpResult Photo :=
  let s := initCacheEnv env s
  let photoId := toString s.photoIdCounter
  let s := { s with photoIdCounter := s.photoIdCounter + 1 }
  let dec := dataUrlToArrayBuffer imageDataUrl
  let imagePut := BlobOp.put env.photoStorageUrl (photoBlobName photoId dec.contentType)
    (BlobContent.image dec.base64 dec.contentType)
  if env.imageUploadFails then
    { result := Except.error DbError.uploadFailed, state := s, trace := [imagePut] }
  else
    let newPhoto : Photo :=
      { id := photoId, userId := userId, username := username
        imageUrl := uploadPhotoUrl env.photoStorageUrl photoId dec.contentType
        title := title, description := description, createdAt := env.now
        comments := [] }
    let s := { s with photosCache := newPhoto :: s.photosCache }
    { result := Except.ok newPhoto, state := s
      trace := imagePut :: syncToAzureOps env s.photosCache }

/-- updatePhoto from db.ts: find by id, fail (null) on absence or ownership
mismatch, apply the provided fields to the found object, then await the
sync — its failure propagates although the cache is already mutated. -/
def updatePhoto (env : Env) (s : DBState) (id userId : String)
    (newTitle newDescription : Option String) : OpResult (Option Photo) :=
  let s := initCacheEnv env s
  match s.photosCache.find? (fun p => p.id == id) with
  | none => { result := Except.ok none, state := s, trace := [] }
  | some photo =>
    if photo.userId ≠ userId then
      { result := Except.ok none, state := s, trace := [] }
    else
      let photo' :=
        { photo with
          title := newTitle.getD photo.title
          description := if newDescription.isSome then newDescription else photo.description }
      let cache := updateFirst (fun p => p.id == id) (fun _ => photo') s.photosCache
      let s := { s with photosCache := cache }
      { result := if env.syncFails then Except.error DbError.syncFailed
                  else Except.ok (some photo')
        state := s, trace := syncToAzureOps env cache }

/-- deletePhoto from db.ts: findIndex on id and owner together, fail (false)
when absent, splice the match out, then await the sync. -/
def deletePhoto (env : Env) (s : DBState) (id userId : String) : OpResult Bool :=
  let s := initCacheEnv env s
  if s.photosCache.any (fun p => p.id == id && p.userId == userId) then
    let cache := removeFirst (fun p => p.id == id && p.userId == userId) s.photosCache
    let s := { s with photosCache := cache }
    { result := if env.syncFails then Except.error DbError.syncFailed else Except.ok true
      state := s, trace := syncToAzureOps env cache }
  else
    { result := Except.ok false, state := s, trace := [] }

/-- addComment from db.ts: find the photo (null when absent — the comment
counter is only bumped afterwards), append the new comment, then await the
sync. -/
def addComment (env : Env) (s : DBState) (photoId userId username content : String) :
    OpResult (Option Comment) :=
  let s := initCacheEnv env s
  match s.photosCache.find? (fun p => p.id == photoId) with
  | none => { result := Except.ok none, state := s, trace := [] }
  | some _ =>
    let comment : Comment :=
      { id := toString s.commentIdCounter, photoId := photoId, userId := userId
        username := username, content := content, createdAt := env.now }
    let cache := updateFirst (fun p => p.id == photoId)
      (fun p => { p with comments := p.comments ++ [comment] }) s.photosCache
    let s := { s with commentIdCounter := s.commentIdCounter + 1, photosCache := cache }
    { result := if env.syncFails then Except.error DbError.syncFailed
                else Except.ok (some comment)
      state := s, trace := syncToAzureOps env cache }

/-- The cache traversal of deleteComment: the first photo holding a comment
matching id and owner has that comment spliced out; `none` when no photo
matches. -/
def deleteCommentFromCache (commentId userId : String) :
    List Photo → Option (List Photo)
  | [] => none
  | p :: ps =>
    if p.comments.any (fun c => c.id == commentId && c.userId == userId) then
      some ({ p with
              comments := removeFirst
                (fun c => c.id == commentId && c.userId == userId) p.comments } :: ps)
    else
      match deleteCommentFromCache commentId userId ps with
      | some ps' => some (p :: ps')
      | none => none

/-- deleteComment from db.ts: scan all photos for the first comment matching
id and owner; on a hit remove it and await the sync, otherwise false. -/
def deleteComment (env : Env) (s : DBState) (commentId userId : String) : OpResult Bool :=
  let s := initCacheEnv env s
  match deleteCommentFromCache commentId userId s.photosCache with
  | some cache =>
    let s := { s with photosCache := cache }
    { result := if env.syncFails then Except.error DbError.syncFailed else Except.ok true
      state := s, trace := syncToAzureOps env cache }
  | none => { result := Except.ok false, state := s, trace := [] }

/-! ## API route handlers (src/routes/api) -/

/-- HTTP-level outcome of a route handler. -/
inductive ApiResponse (α : Type) where
  | success (status : Nat) (value : α)
  | failure (status : Nat) (message : String)
deriving Repr, DecidableEq

/-- The uploaded file of the photos POST route: its MIME type (`file.type`,
empty when the browser supplied none) and its base64-encoded content. -/
structure ImgFile where
  fileType : String
  base64 : String
deriving Repr, DecidableEq

/-- fileToDataURL from routes/api/photos/+server.ts:
``data:${file.type || 'image/jpeg'};base64,${base64}``. -/
def fileToDataURL (file : ImgFile) : String :=
  "data:" ++ (if file.fileType = "" then "image/jpeg" else file.fileType) ++
    ";base64," ++ file.base64

/-- POST /api/photos: reject a missing/empty title or missing image with 400
before any store call; otherwise build the data URL and call createPhoto
(500 on a raised error). -/
def photosPOST (env : Env) (s : DBState) (userId username title : String)
    (description : Option String) (imageFile : Option ImgFile) :
    ApiResponse Photo × DBState × List BlobOp :=
  if title = "" ∨ imageFile.isNone then
    (ApiResponse.failure 400 "Title and image are required", s, [])
  else
    match imageFile with
    | none => (ApiResponse.failure 400 "Title and image are required", s, [])
    | some file =>
      let r := createPhoto env s userId username title (fileToDataURL file) description
      match r.result with
      | Except.ok photo => (ApiResponse.success 201 photo, r.state, r.trace)
      | Except.error _ => (ApiResponse.failure 500 "Failed to upload photo", r.state, r.trace)

/-- POST /api/comments: reject a missing photoId or missing content with 400
before any store call (JS string truthiness: only the empty string is
falsy); otherwise call addComment (404 on null, 500 on a raised error). -/
def commentsPOST (env : Env) (s : DBState) (userId username photoId content : String) :
    ApiResponse Comment × DBState × List BlobOp :=
  if photoId = "" ∨ content = "" then
    (ApiResponse.failure 400 "Photo ID and content are required", s, [])
  else
    let r := addComment env s photoId userId username content
    match r.result with
    | Except.ok (some comment) => (ApiResponse.success 201 comment, r.state, r.trace)
    | Except.ok none => (ApiResponse.failure 404 "Photo not found", r.state, r.trace)
    | Except.error _ => (ApiResponse.failure 500 "Failed to add comment", r.state, r.trace)

/-! ## Sequences of createPhoto calls -/

/-- Arguments of one createPhoto call, together with the environment (time,
remote outcomes) in effect for that call. -/
structure CreateInput where
  env : Env
  userId : String
  username : String
  title : String
  imageDataUrl : String
  description : Option String

/-- Run a sequence of createPhoto calls, threading the state and collecting
the photos of the successful calls in order. -/
def runCreatePhotos (s : DBState) : List CreateInput → List Photo × DBState
  | [] => ([], s)
  | inp :: rest =>
    let r := createPhoto inp.env s inp.userId inp.username inp.title
      inp.imageDataUrl inp.description
    let rec0 := runCreatePhotos r.state rest
    (match r.result with
     | Except.ok p => p :: rec0.1
     | Except.error _ => rec0.1, rec0.2)

/-- Total number of comments embedded in a cache. -/
def totalComments (cache : List Photo) : Nat :=
  (cache.map (fun p => p.comments.length)).sum

/-! ## Concrete fixtures used by closed theorems and witnesses -/

/-- A configuration whose photo container root carries the capability token
"sv=TOKEN", with all remote calls succeeding against an empty index. -/
def sampleEnv : Env :=
  { photoStorageUrl := "https://acc.blob.core.windows.net/photo?sv=TOKEN"
    commentStorageUrl := "https://acc.blob.core.windows.net/comment?sv=CTOKEN"
    fetchIndex := FetchIndexResult.ok []
    imageUploadFails := false, syncFails := false, now := 5 }

/-- The same configuration with a failing index-rewrite sync. -/
def sampleEnvSyncFail : Env :=
  { sampleEnv with syncFails := true }

/-- A photo owned by user "1". -/
def samplePhoto : Photo :=
  { id := "1", userId := "1", username := "alice"
    imageUrl := "https://acc.blob.core.windows.net/photo/photo-1.jpg"
    title := "Sunset", description := none, createdAt := 5, comments := [] }

/-- A comment on samplePhoto, owned by user "2". -/
def sampleComment : Comment :=
  { id := "100", photoId := "1", userId := "2", username := "bob"
    content := "nice!", createdAt := 6 }

/-- An initialized store holding exactly samplePhoto. -/
def sampleState : DBState :=
  { photosCache := [samplePhoto], photoIdCounter := 2, commentIdCounter := 100
    cacheInitialized := true }

/-- An initialized store holding samplePhoto with sampleComment on it. -/
def sampleStateWithComment : DBState :=
  { photosCache := [{ samplePhoto with comments := [sampleComment] }]
    photoIdCounter := 2, commentIdCounter := 101, cacheInitialized := true }

/-- An initialized three-photo store with distinct ids and timestamps. -/
def samplePagingState : DBState :=
  { photosCache :=
      [{ samplePhoto with id := "1", createdAt := 10 },
       { samplePhoto with id := "2", createdAt := 30 },
       { samplePhoto with id := "3", createdAt := 20 }]
    photoIdCounter := 4, commentIdCounter := 100, cacheInitialized := true }

/-! ## Decimal round-trip: `jsParseIntOr0` recovers the value printed by
`String(counter)` (`Nat.repr` / `toString` on `Int`). -/

theorem digitChar_spec : ∀ d : Nat, d < 10 →
    (Nat.digitChar d).isDigit = true ∧ digitVal (Nat.digitChar d) = d ∧
    (Nat.digitChar d).isWhitespace = false ∧
    Nat.digitChar d ≠ '-' ∧ Nat.digitChar d ≠ '+' := by
  decide

theorem parseDigitsAcc_cons_digit {c : Char} (h : c.isDigit = true) (acc : Nat)
    (cs : List Char) :
    parseDigitsAcc acc (c :: cs) = parseDigitsAcc (acc * 10 + digitVal c) cs := by
  simp [parseDigitsAcc, h]

theorem toDigitsCore_parse :
    ∀ (fuel n : Nat), n < fuel → ∀ (ds : List Char) (acc : Nat),
      parseDigitsAcc acc (Nat.toDigitsCore 10 fuel n ds)
        = parseDigitsAcc (acc * 10 ^ (Nat.log 10 n + 1) + n) ds := by
  intro fuel
  induction fuel with
  | zero => intro n h; omega
  | succ fuel ih =>
    intro n h ds acc
    obtain ⟨hdig, hval, -, -, -⟩ := digitChar_spec (n % 10) (Nat.mod_lt _ (by omega))
    rw [Nat.toDigitsCore]
    by_cases h10 : n / 10 = 0
    · have hn : n < 10 := by omega
      have hlog : Nat.log 10 n = 0 := Nat.log_of_lt hn
      simp only [h10, if_pos, parseDigitsAcc_cons_digit hdig, hval, hlog]
      have : n % 10 = n := Nat.mod_eq_of_lt hn
      rw [this, pow_one]
    · have h1 : n / 10 < fuel := by
        have hlt : n / 10 < n := Nat.div_lt_self (by omega) (by omega)
        omega
      rw [if_neg h10, ih (n / 10) h1, parseDigitsAcc_cons_digit hdig, hval]
      have hlog : Nat.log 10 n = Nat.log 10 (n / 10) + 1 := by
        have hd := Nat.log_div_base 10 n
        have hp : 0 < Nat.log 10 n := Nat.log_pos (by omega) (by omega)
        omega
      have hdm : 10 * (n / 10) + n % 10 = n := Nat.div_add_mod n 10
      rw [hlog]
      congr 1
      calc (acc * 10 ^ (Nat.log 10 (n / 10) + 1) + n / 10) * 10 + n % 10
          = acc * (10 ^ (Nat.log 10 (n / 10) + 1) * 10) + (10 * (n / 10) + n % 10) := by
            ring
        _ = acc * 10 ^ (Nat.log 10 (n / 10) + 1 + 1) + n := by rw [hdm]; ring

theorem toDigitsCore_head :
    ∀ (fuel n : Nat), n < fuel → ∀ (ds : List Char),
      ∃ d rest, d < 10 ∧ Nat.toDigitsCore 10 fuel n ds = Nat.digitChar d :: rest := by
  intro fuel
  induction fuel with
  | zero => intro n h; omega
  | succ fuel ih =>
    intro n h ds
    rw [Nat.toDigitsCore]
    by_cases h10 : n / 10 = 0
    · exact ⟨n % 10, ds, Nat.mod_lt _ (by omega), by rw [if_pos h10]⟩
    · have h1 : n / 10 < fuel := by
        have hlt : n / 10 < n := Nat.div_lt_self (by omega) (by omega)
        omega
      obtain ⟨d, rest, hd, heq⟩ := ih (n / 10) h1 (Nat.digitChar (n % 10) :: ds)
      exact ⟨d, rest, hd, by rw [if_neg h10]; exact heq⟩

theorem parseDigitsAcc_toDigits (n : Nat) :
    parseDigitsAcc 0 (Nat.toDigits 10 n) = n := by
  have h := toDigitsCore_parse (n + 1) n (by omega) [] 0
  simpa [Nat.toDigits, parseDigitsAcc] using h

theorem jsParseIntOr0_natRepr (n : Nat) : jsParseIntOr0 (Nat.repr n) = n := by
  obtain ⟨d, rest, hd10, heq⟩ := toDigitsCore_head (n + 1) n (by omega) []
  obtain ⟨hdig, hval, hws, hminus, hplus⟩ := digitChar_spec d hd10
  have hdata : (Nat.repr n).data = Nat.toDigits 10 n := rfl
  have htd : Nat.toDigits 10 n = Nat.digitChar d :: rest := heq
  have hparse : parseDigitsAcc 0 (Nat.digitChar d :: rest) = n := by
    rw [← htd]; exact parseDigitsAcc_toDigits n
  unfold jsParseIntOr0
  rw [hdata, htd, List.dropWhile_cons, hws]
  simp only [Bool.false_eq_true, if_false, if_neg hminus, if_neg hplus, hparse]

theorem jsParseIntOr0_toString_int (i : Int) (h : 0 ≤ i) :
    jsParseIntOr0 (toString i) = i := by
  obtain ⟨m, rfl⟩ := Int.eq_ofNat_of_zero_le h
  show jsParseIntOr0 (Nat.repr m) = Int.ofNat m
  rw [jsParseIntOr0_natRepr]
  rfl

/-! ## Helper lemmas about the store operations -/

theorem initializeCache_of_initialized (url : String) (f : FetchIndexResult)
    (s : DBState) (h : s.cacheInitialized = true) :
    initializeCache url f s = s := by
  simp [initializeCache, h]

theorem initCacheEnv_of_initialized (env : Env) (s : DBState)
    (h : s.cacheInitialized = true) : initCacheEnv env s = s :=
  initializeCache_of_initialized _ _ _ h

theorem nodup_ids_inj {cache : List Photo} (hnodup : (cache.map Photo.id).Nodup)
    {p q : Photo} (hp : p ∈ cache) (hq : q ∈ cache) (h : p.id = q.id) : p = q :=
  List.inj_on_of_nodup_map hnodup hp hq h

theorem find?_id_eq_of_mem {P : Photo} {cache : List Photo}
    (hmem : P ∈ cache) (hnodup : (cache.map Photo.id).Nodup) :
    cache.find? (fun p => p.id == P.id) = some P := by
  induction cache with
  | nil => cases hmem
  | cons q qs ih =>
    rw [List.map_cons, List.nodup_cons] at hnodup
    rcases List.mem_cons.mp hmem with rfl | hq
    · rw [List.find?_cons_of_pos _ (by simp)]
    · have hne : (q.id == P.id) = false := by
        have hqs : P.id ∈ qs.map Photo.id := List.mem_map_of_mem _ hq
        simp only [beq_eq_false_iff_ne, ne_eq]
        intro hEq
        exact hnodup.1 (hEq ▸ hqs)
      rw [List.find?_cons_of_neg _ (by simp [hne])]
      exact ih hq hnodup.2

theorem removeFirst_sublist {α : Type} (pred : α → Bool) (l : List α) :
    (removeFirst pred l).Sublist l := by
  induction l with
  | nil => simp [removeFirst]
  | cons x xs ih =>
    rw [removeFirst]
    by_cases h : pred x
    · rw [if_pos h]
      exact List.sublist_cons_self x xs
    · rw [if_neg h]
      exact List.Sublist.cons₂ x ih

theorem removeFirst_id_ne {P : Photo} {uid : String} {cache : List Photo}
    (hmem : P ∈ cache) (hP : P.userId = uid)
    (hnodup : (cache.map Photo.id).Nodup) :
    ∀ q ∈ removeFirst (fun p => p.id == P.id && p.userId == uid) cache, q.id ≠ P.id := by
  induction cache with
  | nil => cases hmem
  | cons x xs ih =>
    rw [List.map_cons, List.nodup_cons] at hnodup
    rw [removeFirst]
    by_cases hx : (x.id == P.id && x.userId == uid) = true
    · rw [if_pos hx]
      intro q hq hEq
      have hxP : x.id = P.id := by
        simpa using (Bool.and_eq_true _ _ |>.mp hx).1
      exact hnodup.1 (hxP ▸ (hEq ▸ List.mem_map_of_mem Photo.id hq))
    · rw [if_neg hx]
      have hxid : x.id ≠ P.id := by
        intro hEq
        rcases List.mem_cons.mp hmem with rfl | hmem'
        · simp [hP] at hx
        · exact hnodup.1 (hEq ▸ List.mem_map_of_mem Photo.id hmem')
      have hmem' : P ∈ xs := by
        rcases List.mem_cons.mp hmem with rfl | hmem'
        · exact absurd rfl hxid
        · exact hmem'
      intro q hq
      rcases List.mem_cons.mp hq with rfl | hq'
      · exact hxid
      · exact ih hmem' hnodup.2 q hq'

theorem removeFirst_length_of_any {α : Type} (pred : α → Bool) (l : List α)
    (h : l.any pred = true) :
    (removeFirst pred l).length + 1 = l.length := by
  induction l with
  | nil => simp at h
  | cons x xs ih =>
    rw [removeFirst]
    by_cases hx : pred x
    · simp [hx]
    · have h' : xs.any pred = true := by
        rcases List.any_eq_true.mp h with ⟨y, hy, hpy⟩
        rcases List.mem_cons.mp hy with rfl | hy'
        · exact absurd hpy (by simp [hx])
        · exact List.any_eq_true.mpr ⟨y, hy', hpy⟩
      simp [hx, ih h']

theorem updateFirst_mem {α : Type} (pred : α → Bool) (f : α → α) :
    ∀ (l : List α) (x : α), l.find? pred = some x → f x ∈ updateFirst pred f l := by
  intro l
  induction l with
  | nil => intro x h; simp [List.find?] at h
  | cons y ys ih =>
    intro x h
    rw [updateFirst]
    by_cases hy : pred y
    · rw [List.find?_cons_of_pos _ hy] at h
      rw [if_pos hy]
      cases h
      exact List.mem_cons_self _ _
    · rw [List.find?_cons_of_neg _ hy] at h
      rw [if_neg hy]
      exact List.mem_cons_of_mem y (ih x h)

theorem mem_flattenComments {cache : List Photo} {c : Comment}
    (h : c ∈ flattenComments cache) : ∃ p ∈ cache, c.photoId = p.id := by
  rw [flattenComments, List.mem_flatMap] at h
  obtain ⟨p, hp, hc⟩ := h
  obtain ⟨c0, -, rfl⟩ := List.mem_map.mp hc
  exact ⟨p, hp, rfl⟩

theorem deleteCommentFromCache_of_any {cid uid : String} :
    ∀ (cache : List Photo),
      (∃ p ∈ cache, p.comments.any (fun c => c.id == cid && c.userId == uid) = true) →
      ∃ cache', deleteCommentFromCache cid uid cache = some cache' ∧
        ((cache'.map (fun p => p.comments.length)).sum + 1
          = (cache.map (fun p => p.comments.length)).sum) := by
  intro cache
  induction cache with
  | nil => rintro ⟨p, hp, -⟩; cases hp
  | cons x xs ih =>
    rintro ⟨p, hp, hany⟩
    rw [deleteCommentFromCache]
    by_cases hx : x.comments.any (fun c => c.id == cid && c.userId == uid) = true
    · refine ⟨_, by rw [if_pos hx], ?_⟩
      have := removeFirst_length_of_any (fun c => c.id == cid && c.userId == uid)
        x.comments hx
      simp only [List.map_cons, List.sum_cons]
      omega
    · have hp' : p ∈ xs := by
        rcases List.mem_cons.mp hp with rfl | h'
        · exact absurd hany hx
        · exact h'
      obtain ⟨cs', heq, hlen⟩ := ih ⟨p, hp', hany⟩
      refine ⟨x :: cs', ?_, ?_⟩
      · rw [if_neg hx, heq]
      · simp only [List.map_cons, List.sum_cons]
        omega

/-! ## Claim theorems -/

/-- Claim C1 (code-bug evidence): at the failing input — a createPhoto call
against an initialized empty store configured with the capability root
"https://acc.blob.core.windows.net/photo?sv=TOKEN" — the returned photo's
imageUrl is the public URL with the capability token stripped
(uploadBlob returns blobUrl.split('?')[0]), so it does not carry the
currently configured token and differs from the token-carrying URL that
getPhotoBlobUrl produces for the same blob name; the repository's own
URL_FIX_SUMMARY.md documents exactly this returned-stripped-URL behavior
as the incorrect pre-fix version of uploadBlob. -/
theorem c1_createPhoto_returns_tokenless_url :
    ∃ p, (createPhoto sampleEnv initialState "1" "alice" "Sunset"
        "data:image/png;base64,iVBORw0KGgo=" none).result = Except.ok p ∧
      p.imageUrl = "https://acc.blob.core.windows.net/photo/photo-1.png" ∧
      jsIncludes p.imageUrl "sv=TOKEN" = false ∧
      getPhotoBlobUrl sampleEnv.photoStorageUrl "photo-1.png"
        = "https://acc.blob.core.windows.net/photo/photo-1.png?sv=TOKEN" ∧
      p.imageUrl ≠ getPhotoBlobUrl sampleEnv.photoStorageUrl "photo-1.png" := by
  refine ⟨_, rfl, rfl, by decide, rfl, by decide⟩

/-- Claim C2, counterexample: with the spec's inline payload
"image/png;base64,iVBORw0KGgo=" (no "data:" prefix, hence no colon for the
source's regex to match), dataUrlToArrayBuffer decodes the media type to
the image/jpeg fallback — not image/png as the claim states — and the blob
name derived for photo id 1 is photo-1.jpg, not photo-1.png. -/
theorem c2_counterexample :
    (dataUrlToArrayBuffer "image/png;base64,iVBORw0KGgo=").contentType = "image/jpeg" ∧
    (dataUrlToArrayBuffer "image/png;base64,iVBORw0KGgo=").contentType ≠ "image/png" ∧
    photoBlobName "1" (dataUrlToArrayBuffer "image/png;base64,iVBORw0KGgo=").contentType
      = "photo-1.jpg" ∧
    photoBlobName "1" (dataUrlToArrayBuffer "image/png;base64,iVBORw0KGgo=").contentType
      ≠ "photo-1.png" := by
  refine ⟨rfl, by decide, rfl, by decide⟩

/-- Claim C2 (amended): for a createPhoto call on an empty store with the
spec's inline payload "image/png;base64,iVBORw0KGgo=", the decoded media
type falls back to image/jpeg — the payload lacks the "data:" prefix whose
colon the media-type regex requires — and the uploaded blob name is
photo-1.jpg; the returned Photo has the given title and an empty comments
list.  With the data-URL form "data:image/png;base64,iVBORw0KGgo=" of the
same payload, the media type is image/png and the blob name is
photo-1.png, as the claim expected. -/
theorem c2_amended :
    (∃ p, (createPhoto sampleEnv initialState "1" "alice" "Sunset"
        "image/png;base64,iVBORw0KGgo=" none).result = Except.ok p ∧
      p.title = "Sunset" ∧ p.comments = [] ∧
      (dataUrlToArrayBuffer "image/png;base64,iVBORw0KGgo=").contentType
        = "image/jpeg" ∧
      p.imageUrl = "https://acc.blob.core.windows.net/photo/photo-1.jpg") ∧
    (∃ p, (createPhoto sampleEnv initialState "1" "alice" "Sunset"
        "data:image/png;base64,iVBORw0KGgo=" none).result = Except.ok p ∧
      p.title = "Sunset" ∧ p.comments = [] ∧
      (dataUrlToArrayBuffer "data:image/png;base64,iVBORw0KGgo=").contentType
        = "image/png" ∧
      p.imageUrl = "https://acc.blob.core.windows.net/photo/photo-1.png") := by
  exact ⟨⟨_, rfl, rfl, rfl, rfl, rfl⟩, ⟨_, rfl, rfl, rfl, rfl, rfl⟩⟩

/-- Claim C6: initializing against a bucket whose photo-index blob does not
exist (fetch reports not-found) yields an empty cache with the store
marked initialized, and any other failure during the index fetch degrades
the same way; the public operations stay usable and never surface the
failure to their caller. -/
theorem c6_bootstrap_tolerance (env : Env) (s : DBState)
    (hinit : s.cacheInitialized = false)
    (hf : env.fetchIndex = FetchIndexResult.notFound ∨
          env.fetchIndex = FetchIndexResult.transportError) :
    initCacheEnv env s = { s with photosCache := [], cacheInitialized := true } ∧
    (∀ offset limit, (getPhotos env s offset limit).1 = []) ∧
    (∀ i, (getPhotoById env s i).1 = none) ∧
    (env.imageUploadFails = false →
      ∃ p, (createPhoto env s "1" "alice" "T" "data:image/png;base64,AA==" none).result
        = Except.ok p) := by
  have hidx : getPhotosIndex env.fetchIndex = [] := by
    rcases hf with h | h <;> rw [h] <;> rfl
  have hic : initCacheEnv env s
      = { s with photosCache := [], cacheInitialized := true } := by
    rw [initCacheEnv, initializeCache, hinit]
    simp [hidx]
  refine ⟨hic, ?_, ?_, ?_⟩
  · intro offset limit
    rw [getPhotos, hic]
    simp [jsSlice]
  · intro i
    rw [getPhotoById, hic]
    rfl
  · intro himg
    rw [createPhoto, hic]
    simp only [himg, Bool.false_eq_true, if_false]
    exact ⟨_, rfl⟩

/-- Witness for c6_bootstrap_tolerance at a concrete uninitialized state
and a not-found fetch. -/
theorem c6_bootstrap_tolerance_witness :
    initCacheEnv { sampleEnv with fetchIndex := FetchIndexResult.notFound } initialState
      = { initialState with photosCache := [], cacheInitialized := true } ∧
    (∀ offset limit,
      (getPhotos { sampleEnv with fetchIndex := FetchIndexResult.notFound }
        initialState offset limit).1 = []) ∧
    (∀ i, (getPhotoById { sampleEnv with fetchIndex := FetchIndexResult.notFound }
        initialState i).1 = none) ∧
    (({ sampleEnv with fetchIndex := FetchIndexResult.notFound } : Env).imageUploadFails
        = false →
      ∃ p, (createPhoto { sampleEnv with fetchIndex := FetchIndexResult.notFound }
        initialState "1" "alice" "T" "data:image/png;base64,AA==" none).result
        = Except.ok p) :=
  c6_bootstrap_tolerance _ initialState rfl (Or.inl rfl)

/-- Claim C3: for every photo P of an initialized store with duplicate-free
ids and every principal A different from P's owner, updatePhoto and
deletePhoto called by A fail (null respectively false), leave the whole
state untouched, issue no transport request, and return exactly the same
outcome as when no photo with the requested id exists at all — the caller
cannot distinguish "not found" from "found but wrong owner". -/
theorem c3_ownership_enforcement (env : Env) (s : DBState)
    (hinit : s.cacheInitialized = true)
    (hnodup : (s.photosCache.map Photo.id).Nodup)
    (P : Photo) (hP : P ∈ s.photosCache) (A : String) (hA : A ≠ P.userId)
    (t d : Option String) :
    updatePhoto env s P.id A t d
      = { result := Except.ok none, state := s, trace := [] } ∧
    deletePhoto env s P.id A
      = { result := Except.ok false, state := s, trace := [] } ∧
    (∀ id', id' ∉ s.photosCache.map Photo.id →
      updatePhoto env s id' A t d
        = { result := Except.ok none, state := s, trace := [] } ∧
      deletePhoto env s id' A
        = { result := Except.ok false, state := s, trace := [] }) := by
  have hie := initCacheEnv_of_initialized env s hinit
  refine ⟨?_, ?_, ?_⟩
  · rw [updatePhoto, hie, find?_id_eq_of_mem hP hnodup]
    simp [Ne.symm hA]
  · rw [deletePhoto, hie]
    have hany : s.photosCache.any (fun p => p.id == P.id && p.userId == A) = false := by
      rw [List.any_eq_false]
      intro q hq
      simp only [Bool.and_eq_true, beq_iff_eq, not_and]
      intro hid huid
      have hqP : q = P := nodup_ids_inj hnodup hq hP hid
      exact hA (by rw [← huid, hqP])
    simp only [hany, Bool.false_eq_true, if_false]
  · intro id' hid'
    constructor
    · rw [updatePhoto, hie]
      have hfind : s.photosCache.find? (fun p => p.id == id') = none := by
        rw [List.find?_eq_none]
        intro q hq
        simp only [beq_iff_eq]
        exact fun hEq => hid' (hEq ▸ List.mem_map_of_mem Photo.id hq)
      rw [hfind]
    · rw [deletePhoto, hie]
      have hany : s.photosCache.any (fun p => p.id == id' && p.userId == A) = false := by
        rw [List.any_eq_false]
        intro q hq
        simp only [Bool.and_eq_true, beq_iff_eq, not_and]
        intro hid _
        exact hid' (hid ▸ List.mem_map_of_mem Photo.id hq)
      simp only [hany, Bool.false_eq_true, if_false]

/-- Witness for c3_ownership_enforcement: principal "2" can neither update
nor delete samplePhoto (owned by "1"), and the outcome matches the one for
a nonexistent id. -/
theorem c3_ownership_enforcement_witness :
    updatePhoto sampleEnv sampleState samplePhoto.id "2" (some "X") none
      = { result := Except.ok none, state := sampleState, trace := [] } ∧
    deletePhoto sampleEnv sampleState samplePhoto.id "2"
      = { result := Except.ok false, state := sampleState, trace := [] } ∧
    (∀ id', id' ∉ sampleState.photosCache.map Photo.id →
      updatePhoto sampleEnv sampleState id' "2" (some "X") none
        = { result := Except.ok none, state := sampleState, trace := [] } ∧
      deletePhoto sampleEnv sampleState id' "2"
        = { result := Except.ok false, state := sampleState, trace := [] }) :=
  c3_ownership_enforcement sampleEnv sampleState rfl (by decide) samplePhoto
    (by simp [sampleState]) "2" (by decide) (some "X") none

/-- Claim C4: when the index-rewrite sync fails, createPhoto swallows the
failure (it still returns the new photo and the cache contains it), while
updatePhoto, deletePhoto, addComment and deleteComment propagate the sync
failure to the caller as an error even though the in-memory cache mutation
has already been applied. -/
theorem c4_sync_failure_asymmetry (env : Env) (s : DBState)
    (hsync : env.syncFails = true) (himg : env.imageUploadFails = false)
    (hinit : s.cacheInitialized = true)
    (hnodup : (s.photosCache.map Photo.id).Nodup) :
    (∀ uid un t url d,
      ∃ p, (createPhoto env s uid un t url d).result = Except.ok p ∧
        (createPhoto env s uid un t url d).state.photosCache = p :: s.photosCache ∧
        p.title = t) ∧
    (∀ P t, P ∈ s.photosCache →
      (updatePhoto env s P.id P.userId (some t) none).result
          = Except.error DbError.syncFailed ∧
      ∃ q ∈ (updatePhoto env s P.id P.userId (some t) none).state.photosCache,
        q.id = P.id ∧ q.title = t) ∧
    (∀ P, P ∈ s.photosCache →
      (deletePhoto env s P.id P.userId).result = Except.error DbError.syncFailed ∧
      ∀ q ∈ (deletePhoto env s P.id P.userId).state.photosCache, q.id ≠ P.id) ∧
    (∀ P uid un content, P ∈ s.photosCache →
      (addComment env s P.id uid un content).result = Except.error DbError.syncFailed ∧
      ∃ q ∈ (addComment env s P.id uid un content).state.photosCache,
        q.id = P.id ∧ ∃ c ∈ q.comments, c.content = content ∧ c.userId = uid) ∧
    (∀ P C, P ∈ s.photosCache → C ∈ P.comments →
      (deleteComment env s C.id C.userId).result = Except.error DbError.syncFailed ∧
      totalComments (deleteComment env s C.id C.userId).state.photosCache + 1
        = totalComments s.photosCache) := by
  have hie := initCacheEnv_of_initialized env s hinit
  refine ⟨?_, ?_, ?_, ?_, ?_⟩
  · intro uid un t url d
    simp only [createPhoto, hie, himg, Bool.false_eq_true, if_false]
    exact ⟨_, rfl, rfl, rfl⟩
  · intro P t hP
    have hfind := find?_id_eq_of_mem hP hnodup
    simp only [updatePhoto, hie, hfind, ne_eq, eq_self_iff_true, not_true_eq_false,
      Bool.false_eq_true, if_false, hsync, if_true]
    refine ⟨trivial, ?_⟩
    exact ⟨_, updateFirst_mem _ _ _ _ hfind, rfl, rfl⟩
  · intro P hP
    have hany : s.photosCache.any (fun p => p.id == P.id && p.userId == P.userId) = true :=
      List.any_eq_true.mpr ⟨P, hP, by simp⟩
    simp only [deletePhoto, hie, hany, if_true, hsync]
    exact ⟨trivial, removeFirst_id_ne hP rfl hnodup⟩
  · intro P uid un content hP
    have hfind := find?_id_eq_of_mem hP hnodup
    simp only [addComment, hie, hfind, hsync, if_true]
    refine ⟨trivial, ?_⟩
    refine ⟨_, updateFirst_mem _ _ _ _ hfind, rfl, ?_⟩
    exact ⟨_, List.mem_append_right _ (List.mem_singleton.mpr rfl), rfl, rfl⟩
  · intro P C hP hC
    have hany : P.comments.any (fun c => c.id == C.id && c.userId == C.userId) = true :=
      List.any_eq_true.mpr ⟨C, hC, by simp⟩
    obtain ⟨cache', heq, hlen⟩ :=
      deleteCommentFromCache_of_any s.photosCache ⟨P, hP, hany⟩
    simp only [deleteComment, hie, heq, hsync, if_true]
    exact ⟨trivial, hlen⟩

/-- Witness for c4_sync_failure_asymmetry: a failing sync on a store
holding samplePhoto with sampleComment. -/
theorem c4_sync_failure_asymmetry_witness :
    (∀ uid un t url d,
      ∃ p, (createPhoto sampleEnvSyncFail sampleStateWithComment uid un t url d).result
          = Except.ok p ∧
        (createPhoto sampleEnvSyncFail sampleStateWithComment uid un t url d).state.photosCache
          = p :: sampleStateWithComment.photosCache ∧
        p.title = t) ∧
    (∀ P t, P ∈ sampleStateWithComment.photosCache →
      (updatePhoto sampleEnvSyncFail sampleStateWithComment P.id P.userId (some t) none).result
          = Except.error DbError.syncFailed ∧
      ∃ q ∈ (updatePhoto sampleEnvSyncFail sampleStateWithComment P.id P.userId
          (some t) none).state.photosCache,
        q.id = P.id ∧ q.title = t) ∧
    (∀ P, P ∈ sampleStateWithComment.photosCache →
      (deletePhoto sampleEnvSyncFail sampleStateWithComment P.id P.userId).result
          = Except.error DbError.syncFailed ∧
      ∀ q ∈ (deletePhoto sampleEnvSyncFail sampleStateWithComment P.id
          P.userId).state.photosCache, q.id ≠ P.id) ∧
    (∀ P uid un content, P ∈ sampleStateWithComment.photosCache →
      (addComment sampleEnvSyncFail sampleStateWithComment P.id uid un content).result
          = Except.error DbError.syncFailed ∧
      ∃ q ∈ (addComment sampleEnvSyncFail sampleStateWithComment P.id uid un
          content).state.photosCache,
        q.id = P.id ∧ ∃ c ∈ q.comments, c.content = content ∧ c.userId = uid) ∧
    (∀ P C, P ∈ sampleStateWithComment.photosCache → C ∈ P.comments →
      (deleteComment sampleEnvSyncFail sampleStateWithComment C.id C.userId).result
          = Except.error DbError.syncFailed ∧
      totalComments (deleteComment sampleEnvSyncFail sampleStateWithComment C.id
          C.userId).state.photosCache + 1
        = totalComments sampleStateWithComment.photosCache) :=
  c4_sync_failure_asymmetry sampleEnvSyncFail sampleStateWithComment rfl rfl rfl (by decide)

/-- Claim C9: a successful deletePhoto by the owner removes the photo and
all of its comments as a unit: the call returns true, the photo is no
longer readable through getPhotoById or any getPhotos page, every photo
left in the cache has a different id, and the flat comment index written
by the following sync (every remaining photo's comments re-tagged with
their parent photo id) contains no comment tagged with the deleted id. -/
theorem c9_comment_cascade (env : Env) (s : DBState)
    (hinit : s.cacheInitialized = true)
    (hnodup : (s.photosCache.map Photo.id).Nodup)
    (P : Photo) (hP : P ∈ s.photosCache) (hsync : env.syncFails = false) :
    (deletePhoto env s P.id P.userId).result = Except.ok true ∧
    (getPhotoById env (deletePhoto env s P.id P.userId).state P.id).1 = none ∧
    (∀ q ∈ (deletePhoto env s P.id P.userId).state.photosCache, q.id ≠ P.id) ∧
    (∀ offset limit,
      ∀ q ∈ (getPhotos env (deletePhoto env s P.id P.userId).state offset limit).1,
        q.id ≠ P.id) ∧
    (deletePhoto env s P.id P.userId).trace
      = syncToAzureOps env (deletePhoto env s P.id P.userId).state.photosCache ∧
    (∀ c ∈ flattenComments (deletePhoto env s P.id P.userId).state.photosCache,
      c.photoId ≠ P.id) := by
  have hie := initCacheEnv_of_initialized env s hinit
  have hany : s.photosCache.any (fun p => p.id == P.id && p.userId == P.userId) = true :=
    List.any_eq_true.mpr ⟨P, hP, by simp⟩
  have hids := removeFirst_id_ne hP rfl hnodup
  have hstate : (deletePhoto env s P.id P.userId).state
      = { s with photosCache :=
            removeFirst (fun p => p.id == P.id && p.userId == P.userId) s.photosCache } := by
    simp only [deletePhoto, hie, hany, if_true]
  have hcache : (deletePhoto env s P.id P.userId).state.photosCache
      = removeFirst (fun p => p.id == P.id && p.userId == P.userId) s.photosCache := by
    rw [hstate]
  have hinit' : (deletePhoto env s P.id P.userId).state.cacheInitialized = true := by
    rw [hstate]; exact hinit
  have hie' := initCacheEnv_of_initialized env _ hinit'
  refine ⟨?_, ?_, ?_, ?_, ?_, ?_⟩
  · simp only [deletePhoto, hie, hany, if_true, hsync, Bool.false_eq_true, if_false]
  · rw [getPhotoById, hie']
    simp only [List.find?_eq_none]
    intro q hq
    simp only [beq_iff_eq]
    exact hids q (hcache ▸ hq)
  · intro q hq
    exact hids q (hcache ▸ hq)
  · intro offset limit q hq
    rw [getPhotos, hie'] at hq
    simp only [jsSlice] at hq
    have hq1 : q ∈ ((deletePhoto env s P.id P.userId).state.photosCache.mergeSort
        photoLe) := by
      exact List.mem_of_mem_drop (List.mem_of_mem_take hq)
    rw [List.mem_mergeSort] at hq1
    exact hids q (hcache ▸ hq1)
  · simp only [deletePhoto, hie, hany, if_true]
  · intro c hc
    obtain ⟨p, hp, hcp⟩ := mem_flattenComments hc
    rw [hcp]
    exact hids p (hcache ▸ hp)

/-- Witness for c9_comment_cascade: the owner "1" deletes samplePhoto
(which carries sampleComment) from sampleStateWithComment. -/
theorem c9_comment_cascade_witness :
    (deletePhoto sampleEnv sampleStateWithComment
        ({ samplePhoto with comments := [sampleComment] } : Photo).id
        ({ samplePhoto with comments := [sampleComment] } : Photo).userId).result
      = Except.ok true ∧
    (getPhotoById sampleEnv (deletePhoto sampleEnv sampleStateWithComment
        ({ samplePhoto with comments := [sampleComment] } : Photo).id
        ({ samplePhoto with comments := [sampleComment] } : Photo).userId).state
        ({ samplePhoto with comments := [sampleComment] } : Photo).id).1 = none ∧
    (∀ q ∈ (deletePhoto sampleEnv sampleStateWithComment
        ({ samplePhoto with comments := [sampleComment] } : Photo).id
        ({ samplePhoto with comments := [sampleComment] } : Photo).userId).state.photosCache,
      q.id ≠ ({ samplePhoto with comments := [sampleComment] } : Photo).id) ∧
    (∀ offset limit,
      ∀ q ∈ (getPhotos sampleEnv (deletePhoto sampleEnv sampleStateWithComment
          ({ samplePhoto with comments := [sampleComment] } : Photo).id
          ({ samplePhoto with comments := [sampleComment] } : Photo).userId).state
          offset limit).1,
        q.id ≠ ({ samplePhoto with comments := [sampleComment] } : Photo).id) ∧
    (deletePhoto sampleEnv sampleStateWithComment
        ({ samplePhoto with comments := [sampleComment] } : Photo).id
        ({ samplePhoto with comments := [sampleComment] } : Photo).userId).trace
      = syncToAzureOps sampleEnv (deletePhoto sampleEnv sampleStateWithComment
          ({ samplePhoto with comments := [sampleComment] } : Photo).id
          ({ samplePhoto with comments := [sampleComment] } : Photo).userId).state.photosCache ∧
    (∀ c ∈ flattenComments (deletePhoto sampleEnv sampleStateWithComment
        ({ samplePhoto with comments := [sampleComment] } : Photo).id
        ({ samplePhoto with comments := [sampleComment] } : Photo).userId).state.photosCache,
      c.photoId ≠ ({ samplePhoto with comments := [sampleComment] } : Photo).id) :=
  c9_comment_cascade sampleEnv sampleStateWithComment rfl (by decide)
    { samplePhoto with comments := [sampleComment] }
    (by simp [sampleStateWithComment]) rfl

/-! ## Trace lemmas for the frame claim -/

theorem applyOp_put_other (r : RemoteStore) (c n : String) (content : BlobContent)
    (k : String × String) (h : k.2 ≠ n) :
    applyOp r (BlobOp.put c n content) k = r k := by
  have hk : k ≠ (c, n) := by
    intro hEq
    exact h (by rw [hEq])
  simp [applyOp, hk]

theorem syncToAzureOps_no_del (env : Env) (cache : List Photo) (c n : String) :
    BlobOp.del c n ∉ syncToAzureOps env cache := by
  rw [syncToAzureOps]
  by_cases h : env.syncFails = true <;> simp [h]

theorem applyTrace_syncToAzureOps (env : Env) (cache : List Photo)
    (r : RemoteStore) (k : String × String)
    (h1 : k.2 ≠ "photos-index.json") (h2 : k.2 ≠ "comments-index.json") :
    applyTrace r (syncToAzureOps env cache) k = r k := by
  rw [syncToAzureOps]
  by_cases h : env.syncFails = true
  · rw [if_pos h]
    simp only [applyTrace, List.foldl]
    exact applyOp_put_other r _ _ _ k h1
  · rw [if_neg h]
    simp only [applyTrace, List.foldl]
    rw [applyOp_put_other _ _ _ _ k h2, applyOp_put_other _ _ _ _ k h1]

theorem photoBlobName_extension (ct : String) :
    getExtensionFromContentType ct = "jpg" ∨ getExtensionFromContentType ct = "png" ∨
    getExtensionFromContentType ct = "gif" ∨ getExtensionFromContentType ct = "webp" := by
  rw [getExtensionFromContentType]
  split_ifs <;> simp

theorem suffix_of_append_eq {a b c : String} (h : a ++ b = c) : b.data <:+ c.data :=
  ⟨a.data, by rw [← String.data_append, h]⟩

theorem photoBlobName_ne_index (pid ct : String) :
    photoBlobName pid ct ≠ "photos-index.json" ∧
    photoBlobName pid ct ≠ "comments-index.json" := by
  constructor <;>
  · intro h
    have hsuf := suffix_of_append_eq h
    rcases photoBlobName_extension ct with he | he | he | he <;>
      rw [he] at hsuf <;> revert hsuf <;> decide

/-- The trace of deletePhoto is empty or one syncToAzure trace. -/
theorem deletePhoto_trace_cases (env : Env) (s : DBState) (id uid : String) :
    (deletePhoto env s id uid).trace = [] ∨
    ∃ cache, (deletePhoto env s id uid).trace = syncToAzureOps env cache := by
  by_cases h : ((initCacheEnv env s).photosCache.any
      (fun p => p.id == id && p.userId == uid)) = true
  · right
    refine ⟨removeFirst (fun p => p.id == id && p.userId == uid)
      (initCacheEnv env s).photosCache, ?_⟩
    simp only [deletePhoto, h, if_true]
  · left
    simp only [deletePhoto, h, Bool.false_eq_true, if_false]

/-- Claim C10: a successful deletePhoto rewrites the two index snapshots
but never issues a DELETE request: no trace of deletePhoto (nor of any
other store mutation) contains a deleteBlob operation, and applying
deletePhoto's trace to any remote store leaves every object other than the
two index blobs — in particular the deleted photo's binary blob
photo-<id>.<extension> — exactly as it was. -/
theorem c10_image_blob_never_deleted (env : Env) (s : DBState) (id uid : String) :
    (∀ c n, deleteBlobOp c n ∉ (deletePhoto env s id uid).trace) ∧
    (∀ (r : RemoteStore) (k : String × String),
      k.2 ≠ "photos-index.json" → k.2 ≠ "comments-index.json" →
      applyTrace r (deletePhoto env s id uid).trace k = r k) ∧
    (∀ (r : RemoteStore) (cont pid ct : String),
      applyTrace r (deletePhoto env s id uid).trace (cont, photoBlobName pid ct)
        = r (cont, photoBlobName pid ct)) ∧
    (∀ uid2 un t url d c n,
      deleteBlobOp c n ∉ (createPhoto env s uid2 un t url d).trace) ∧
    (∀ pid uid2 t d c n, deleteBlobOp c n ∉ (updatePhoto env s pid uid2 t d).trace) ∧
    (∀ pid uid2 un content c n,
      deleteBlobOp c n ∉ (addComment env s pid uid2 un content).trace) ∧
    (∀ cid uid2 c n, deleteBlobOp c n ∉ (deleteComment env s cid uid2).trace) := by
  have hframe : ∀ (r : RemoteStore) (k : String × String),
      k.2 ≠ "photos-index.json" → k.2 ≠ "comments-index.json" →
      applyTrace r (deletePhoto env s id uid).trace k = r k := by
    intro r k h1 h2
    rcases deletePhoto_trace_cases env s id uid with h | ⟨cache, h⟩
    · rw [h]; rfl
    · rw [h]; exact applyTrace_syncToAzureOps env cache r k h1 h2
  refine ⟨?_, hframe, ?_, ?_, ?_, ?_, ?_⟩
  · intro c n
    rcases deletePhoto_trace_cases env s id uid with h | ⟨cache, h⟩
    · rw [h]; simp [deleteBlobOp]
    · rw [h]; exact syncToAzureOps_no_del env cache c n
  · intro r cont pid ct
    obtain ⟨h1, h2⟩ := photoBlobName_ne_index pid ct
    exact hframe r (cont, photoBlobName pid ct) h1 h2
  · intro uid2 un t url d c n
    rw [createPhoto]
    by_cases h : env.imageUploadFails = true
    · simp only [h, if_true]
      simp [deleteBlobOp]
    · simp only [h, Bool.false_eq_true, if_false]
      intro hmem
      rcases List.mem_cons.mp hmem with hEq | hmem'
      · exact BlobOp.noConfusion hEq
      · exact syncToAzureOps_no_del env _ c n hmem'
  · intro pid uid2 t d c n
    rcases hfind : (initCacheEnv env s).photosCache.find? (fun p => p.id == pid) with
      _ | photo
    · simp [updatePhoto, hfind]
    · by_cases howner : photo.userId ≠ uid2
      · simp [updatePhoto, hfind, howner]
      · have he : photo.userId = uid2 := not_not.mp howner
        simp only [updatePhoto, hfind, he, ne_eq, eq_self_iff_true, not_true_eq_false,
          Bool.false_eq_true, if_false, ite_false]
        exact syncToAzureOps_no_del env _ c n
  · intro pid uid2 un content c n
    rcases hfind : (initCacheEnv env s).photosCache.find? (fun p => p.id == pid) with
      _ | photo
    · simp [addComment, hfind]
    · simp only [addComment, hfind]
      exact syncToAzureOps_no_del env _ c n
  · intro cid uid2 c n
    rcases hdel : deleteCommentFromCache cid uid2 (initCacheEnv env s).photosCache with
      _ | cache
    · simp [deleteComment, hdel]
    · simp only [deleteComment, hdel]
      exact syncToAzureOps_no_del env _ c n

/-- Witness for c10_image_blob_never_deleted at the sample deletion. -/
theorem c10_image_blob_never_deleted_witness :
    (∀ c n, deleteBlobOp c n ∉ (deletePhoto sampleEnv sampleState "1" "1").trace) ∧
    (∀ (r : RemoteStore) (k : String × String),
      k.2 ≠ "photos-index.json" → k.2 ≠ "comments-index.json" →
      applyTrace r (deletePhoto sampleEnv sampleState "1" "1").trace k = r k) ∧
    (∀ (r : RemoteStore) (cont pid ct : String),
      applyTrace r (deletePhoto sampleEnv sampleState "1" "1").trace
          (cont, photoBlobName pid ct)
        = r (cont, photoBlobName pid ct)) ∧
    (∀ uid2 un t url d c n,
      deleteBlobOp c n ∉ (createPhoto sampleEnv sampleState uid2 un t url d).trace) ∧
    (∀ pid uid2 t d c n,
      deleteBlobOp c n ∉ (updatePhoto sampleEnv sampleState pid uid2 t d).trace) ∧
    (∀ pid uid2 un content c n,
      deleteBlobOp c n ∉ (addComment sampleEnv sampleState pid uid2 un content).trace) ∧
    (∀ cid uid2 c n,
      deleteBlobOp c n ∉ (deleteComment sampleEnv sampleState cid uid2).trace) :=
  c10_image_blob_never_deleted sampleEnv sampleState "1" "1"

/-- Claim C7: getPhotos returns the cached photos sorted by createdAt
descending and sliced to [offset, offset+limit); reading page [0,N) and
then page [N,N+M) from an unchanged store (also through the state the
first call leaves behind, which carries the in-place re-sorted cache)
yields no duplicate photo ids and keeps the descending createdAt order
across the page boundary. -/
theorem c7_pagination (env : Env) (s : DBState)
    (hinit : s.cacheInitialized = true)
    (hnodup : (s.photosCache.map Photo.id).Nodup) :
    ∃ full : List Photo,
      full.Perm s.photosCache ∧
      full.Pairwise (fun a b => b.createdAt ≤ a.createdAt) ∧
      (∀ offset limit, (getPhotos env s offset limit).1 = jsSlice full offset limit) ∧
      (∀ N M, (getPhotos env ((getPhotos env s 0 N).2) N M).1
          = (getPhotos env s N M).1) ∧
      (∀ N M,
        (((getPhotos env s 0 N).1 ++ (getPhotos env s N M).1).map Photo.id).Nodup ∧
        ((getPhotos env s 0 N).1 ++ (getPhotos env s N M).1).Pairwise
          (fun a b => b.createdAt ≤ a.createdAt)) := by
  have hie := initCacheEnv_of_initialized env s hinit
  have htrans : ∀ a b c : Photo,
      photoLe a b = true → photoLe b c = true → photoLe a c = true := by
    intro a b c
    simp only [photoLe, decide_eq_true_eq]
    omega
  have htot : ∀ a b : Photo, (photoLe a b || photoLe b a) = true := by
    intro a b
    simp only [photoLe, Bool.or_eq_true, decide_eq_true_eq]
    omega
  have hperm : (s.photosCache.mergeSort photoLe).Perm s.photosCache :=
    List.mergeSort_perm _ _
  have hsortedB : (s.photosCache.mergeSort photoLe).Pairwise
      (fun a b => photoLe a b = true) :=
    List.sorted_mergeSort htrans htot s.photosCache
  have hsorted : (s.photosCache.mergeSort photoLe).Pairwise
      (fun a b => b.createdAt ≤ a.createdAt) :=
    hsortedB.imp (by
      intro a b h
      simpa [photoLe, decide_eq_true_eq] using h)
  have hslice : ∀ offset limit, (getPhotos env s offset limit).1
      = jsSlice (s.photosCache.mergeSort photoLe) offset limit := by
    intro offset limit
    rw [getPhotos, hie]
  have hstate2 : ∀ N : Nat, (getPhotos env s 0 N).2
      = { s with photosCache := s.photosCache.mergeSort photoLe } := by
    intro N
    rw [getPhotos, hie]
  have hthread : ∀ N M, (getPhotos env ((getPhotos env s 0 N).2) N M).1
      = (getPhotos env s N M).1 := by
    intro N M
    have h1 : initCacheEnv env { s with photosCache := s.photosCache.mergeSort photoLe }
        = { s with photosCache := s.photosCache.mergeSort photoLe } :=
      initCacheEnv_of_initialized _ _ hinit
    have h2 : (getPhotos env { s with photosCache := s.photosCache.mergeSort photoLe }
        N M).1 = jsSlice ((s.photosCache.mergeSort photoLe).mergeSort photoLe) N M := by
      rw [getPhotos, h1]
    rw [hstate2 N, h2, List.mergeSort_of_sorted hsortedB, hslice N M]
  have hpage : ∀ N M : Nat,
      ((getPhotos env s 0 N).1 ++ (getPhotos env s N M).1).Sublist
        (s.photosCache.mergeSort photoLe) := by
    intro N M
    rw [hslice, hslice]
    have h0 : jsSlice (s.photosCache.mergeSort photoLe) 0 N
        = (s.photosCache.mergeSort photoLe).take N := by
      simp [jsSlice]
    rw [h0]
    have hsub : List.Sublist
        ((s.photosCache.mergeSort photoLe).take N
          ++ ((s.photosCache.mergeSort photoLe).drop N).take M)
        ((s.photosCache.mergeSort photoLe).take N
          ++ (s.photosCache.mergeSort photoLe).drop N) :=
      (List.append_sublist_append_left _).mpr (List.take_sublist _ _)
    rw [List.take_append_drop] at hsub
    exact hsub
  refine ⟨s.photosCache.mergeSort photoLe, hperm, hsorted, hslice, hthread, ?_⟩
  intro N M
  constructor
  · have hfn : ((s.photosCache.mergeSort photoLe).map Photo.id).Nodup :=
      ((hperm.map Photo.id).nodup_iff).mpr hnodup
    exact List.Nodup.sublist (List.Sublist.map Photo.id (hpage N M)) hfn
  · exact List.Pairwise.sublist (hpage N M) hsorted

/-- Witness for c7_pagination at the three-photo sample store. -/
theorem c7_pagination_witness :
    ∃ full : List Photo,
      full.Perm samplePagingState.photosCache ∧
      full.Pairwise (fun a b => b.createdAt ≤ a.createdAt) ∧
      (∀ offset limit, (getPhotos sampleEnv samplePagingState offset limit).1
          = jsSlice full offset limit) ∧
      (∀ N M, (getPhotos sampleEnv ((getPhotos sampleEnv samplePagingState 0 N).2) N M).1
          = (getPhotos sampleEnv samplePagingState N M).1) ∧
      (∀ N M,
        (((getPhotos sampleEnv samplePagingState 0 N).1
            ++ (getPhotos sampleEnv samplePagingState N M).1).map Photo.id).Nodup ∧
        ((getPhotos sampleEnv samplePagingState 0 N).1
            ++ (getPhotos sampleEnv samplePagingState N M).1).Pairwise
          (fun a b => b.createdAt ≤ a.createdAt)) :=
  c7_pagination sampleEnv samplePagingState rfl (by decide)

/-- Claim C8, counterexample: whitespace-only comment content is NOT
rejected — the comments POST route only tests JS truthiness (`!content`),
which the non-empty string " " passes, and addComment stores the content
without trimming: at this concrete input the call succeeds with 201 and
the stored comment's content is the whitespace-only string " ". -/
theorem c8_counterexample :
    ∃ c, (commentsPOST sampleEnv sampleState "2" "bob" "1" " ").1
        = ApiResponse.success 201 c ∧
      c.content = " " ∧ c.content ≠ "" ∧
      c.content.data.all Char.isWhitespace = true ∧
      ∃ q ∈ (commentsPOST sampleEnv sampleState "2" "bob" "1" " ").2.1.photosCache,
        c ∈ q.comments := by
  refine ⟨_, rfl, rfl, by decide, by decide, ?_⟩
  exact ⟨_, List.mem_singleton.mpr rfl, List.mem_append_right _ (List.mem_singleton.mpr rfl)⟩

/-- Claim C8 (amended): the route layer rejects missing required fields
before any store call or I/O — a missing/empty title (photos POST) and a
missing/empty-string content or photoId (comments POST) fail with a 400
validation error, an unchanged state, and an empty transport trace; but
content is not trimmed, so whitespace-only content passes validation, is
accepted, and is stored verbatim. -/
theorem c8_amended (env : Env) (s : DBState) (uid un : String) :
    (∀ t d img, t = "" ∨ img = (none : Option ImgFile) →
      photosPOST env s uid un t d img
        = (ApiResponse.failure 400 "Title and image are required", s, [])) ∧
    (∀ pid content, pid = "" ∨ content = "" →
      commentsPOST env s uid un pid content
        = (ApiResponse.failure 400 "Photo ID and content are required", s, [])) ∧
    (∀ P, s.cacheInitialized = true → (s.photosCache.map Photo.id).Nodup →
      P ∈ s.photosCache → P.id ≠ "" → env.syncFails = false →
      ∃ c, (commentsPOST env s uid un P.id " ").1 = ApiResponse.success 201 c ∧
        c.content = " " ∧
        ∃ q ∈ (commentsPOST env s uid un P.id " ").2.1.photosCache,
          q.id = P.id ∧ c ∈ q.comments) := by
  refine ⟨?_, ?_, ?_⟩
  · intro t d img h
    have hcond : t = "" ∨ img.isNone = true := by
      rcases h with h | h
      · exact Or.inl h
      · exact Or.inr (by rw [h]; rfl)
    rw [photosPOST.eq_def, if_pos hcond]
  · intro pid content h
    rw [commentsPOST, if_pos h]
  · intro P hinit hnodup hP hpid hsync
    have hie := initCacheEnv_of_initialized env s hinit
    have hfind := find?_id_eq_of_mem hP hnodup
    have hcond : ¬(P.id = "" ∨ (" " : String) = "") := by
      rintro (h | h)
      · exact hpid h
      · exact absurd h (by decide)
    simp only [commentsPOST, if_neg hcond, addComment, hie, hfind, hsync,
      Bool.false_eq_true, if_false]
    refine ⟨_, rfl, rfl, ?_⟩
    refine ⟨_, updateFirst_mem _ _ _ _ hfind, rfl, ?_⟩
    exact List.mem_append_right _ (List.mem_singleton.mpr rfl)

/-- Witness for c8_amended: concrete rejected inputs and the accepted
whitespace-only comment on sampleState. -/
theorem c8_amended_witness :
    (photosPOST sampleEnv sampleState "2" "bob" "" none (some ⟨"image/png", "AA=="⟩)
      = (ApiResponse.failure 400 "Title and image are required", sampleState, [])) ∧
    (commentsPOST sampleEnv sampleState "2" "bob" "1" ""
      = (ApiResponse.failure 400 "Photo ID and content are required", sampleState, [])) ∧
    (∃ c, (commentsPOST sampleEnv sampleState "2" "bob" samplePhoto.id " ").1
        = ApiResponse.success 201 c ∧
      c.content = " " ∧
      ∃ q ∈ (commentsPOST sampleEnv sampleState "2" "bob" samplePhoto.id " ").2.1.photosCache,
        q.id = samplePhoto.id ∧ c ∈ q.comments) :=
  ⟨(c8_amended sampleEnv sampleState "2" "bob").1 "" none (some ⟨"image/png", "AA=="⟩)
      (Or.inl rfl),
   (c8_amended sampleEnv sampleState "2" "bob").2.1 "1" "" (Or.inr rfl),
   (c8_amended sampleEnv sampleState "2" "bob").2.2 samplePhoto rfl (by decide)
      (by simp [sampleState]) (by decide) rfl⟩

/-! ## Counter and id lemmas for the uniqueness claim -/

theorem refreshPhotoUrl_id (u : String) (p : Photo) :
    (refreshPhotoUrl u p).id = p.id := by
  rw [refreshPhotoUrl]
  split_ifs <;> rfl

theorem refreshPhotoUrl_comments (u : String) (p : Photo) :
    (refreshPhotoUrl u p).comments = p.comments := by
  rw [refreshPhotoUrl]
  split_ifs <;> rfl

theorem createPhoto_state_spec (env : Env) (s : DBState)
    (uid un t url : String) (d : Option String)
    (hinit : s.cacheInitialized = true) :
    (createPhoto env s uid un t url d).state.photoIdCounter = s.photoIdCounter + 1 ∧
    (createPhoto env s uid un t url d).state.cacheInitialized = true ∧
    ∀ p, (createPhoto env s uid un t url d).result = Except.ok p →
      p.id = toString s.photoIdCounter := by
  have hie := initCacheEnv_of_initialized env s hinit
  by_cases h : env.imageUploadFails = true
  · simp only [createPhoto, hie, h, if_true]
    exact ⟨trivial, hinit, fun p hp => Except.noConfusion hp⟩
  · simp only [createPhoto, hie, h, Bool.false_eq_true, if_false]
    refine ⟨trivial, hinit, ?_⟩
    intro p hp
    cases hp
    rfl

theorem runCreatePhotos_ids (inputs : List CreateInput) :
    ∀ s : DBState, s.cacheInitialized = true → 0 ≤ s.photoIdCounter →
      (∀ p ∈ (runCreatePhotos s inputs).1, s.photoIdCounter ≤ jsParseIntOr0 p.id) ∧
      ((runCreatePhotos s inputs).1.map (fun p => jsParseIntOr0 p.id)).Pairwise
        (fun a b => a < b) := by
  induction inputs with
  | nil =>
    intro s _ _
    exact ⟨fun p hp => absurd hp (by simp [runCreatePhotos]), by simp [runCreatePhotos]⟩
  | cons inp rest ih =>
    intro s hinit hcnt
    obtain ⟨hc1, hc2, hc3⟩ := createPhoto_state_spec inp.env s inp.userId inp.username
      inp.title inp.imageDataUrl inp.description hinit
    have hcnt' : 0 ≤ (createPhoto inp.env s inp.userId inp.username inp.title
        inp.imageDataUrl inp.description).state.photoIdCounter := by
      rw [hc1]; omega
    obtain ⟨ihb, ihp⟩ := ih _ hc2 hcnt'
    have hrun : (runCreatePhotos s (inp :: rest)).1
        = (match (createPhoto inp.env s inp.userId inp.username inp.title
              inp.imageDataUrl inp.description).result with
           | Except.ok p => p :: (runCreatePhotos (createPhoto inp.env s inp.userId
              inp.username inp.title inp.imageDataUrl inp.description).state rest).1
           | Except.error _ => (runCreatePhotos (createPhoto inp.env s inp.userId
              inp.username inp.title inp.imageDataUrl inp.description).state rest).1) :=
      rfl
    rcases hres : (createPhoto inp.env s inp.userId inp.username inp.title
        inp.imageDataUrl inp.description).result with e | p
    · simp only [hres] at hrun
      rw [hrun]
      constructor
      · intro q hq
        have := ihb q hq
        rw [hc1] at this
        omega
      · exact ihp
    · simp only [hres] at hrun
      rw [hrun]
      have hpid : p.id = toString s.photoIdCounter := hc3 p hres
      have hparse : jsParseIntOr0 p.id = s.photoIdCounter := by
        rw [hpid]
        exact jsParseIntOr0_toString_int _ hcnt
      constructor
      · intro q hq
        rcases List.mem_cons.mp hq with rfl | hq'
        · exact le_of_eq hparse.symm
        · have := ihb q hq'
          rw [hc1] at this
          omega
      · rw [List.map_cons, List.pairwise_cons]
        constructor
        · intro b hb
          obtain ⟨q, hq, rfl⟩ := List.mem_map.mp hb
          have := ihb q hq
          rw [hc1] at this
          rw [hparse]
          omega
        · exact ihp

theorem pairwise_lt_map_nodup {l : List Photo}
    (h : (l.map (fun p => jsParseIntOr0 p.id)).Pairwise (fun a b => a < b)) :
    (l.map Photo.id).Nodup := by
  rw [List.pairwise_map] at h
  show List.Pairwise (fun a b => a ≠ b) (l.map Photo.id)
  rw [List.pairwise_map]
  refine h.imp ?_
  intro a b hlt hEq
  rw [hEq] at hlt
  exact lt_irrefl _ hlt

theorem initializeCache_seeds (photoUrl : String) (loaded : List Photo) :
    (initializeCache photoUrl (FetchIndexResult.ok loaded) initialState).photoIdCounter
      = (if loaded = [] then 1
         else listMaxInt (loaded.map (fun p => jsParseIntOr0 p.id)) + 1) ∧
    (initializeCache photoUrl (FetchIndexResult.ok loaded) initialState).commentIdCounter
      = (if loaded.flatMap (fun p => p.comments) = [] then 100
         else listMaxInt ((loaded.flatMap (fun p => p.comments)).map
            (fun c => jsParseIntOr0 c.id)) + 1) ∧
    (initializeCache photoUrl (FetchIndexResult.ok loaded) initialState).cacheInitialized
      = true := by
  have hmapid : (loaded.map (refreshPhotoUrl photoUrl)).map (fun p => jsParseIntOr0 p.id)
      = loaded.map (fun p => jsParseIntOr0 p.id) := by
    rw [List.map_map]
    exact List.map_congr_left (fun p _ => by
      show jsParseIntOr0 (refreshPhotoUrl photoUrl p).id = jsParseIntOr0 p.id
      rw [refreshPhotoUrl_id])
  have hflat : (loaded.map (refreshPhotoUrl photoUrl)).flatMap (fun p => p.comments)
      = loaded.flatMap (fun p => p.comments) := by
    rw [List.flatMap_map]
    exact List.flatMap_congr (fun p _ => by rw [refreshPhotoUrl_comments])
  by_cases hl : loaded = []
  · subst hl
    exact ⟨rfl, rfl, rfl⟩
  · have hlen : 0 < (loaded.map (refreshPhotoUrl photoUrl)).length := by
      rw [List.length_map]
      exact List.length_pos.mpr hl
    simp only [initializeCache, getPhotosIndex, initialState, Bool.false_eq_true,
      if_false, if_pos hlen, hmapid, hflat]
    refine ⟨by rw [if_neg hl], ?_, trivial⟩
    by_cases hc : loaded.flatMap (fun p => p.comments) = []
    · rw [if_pos hc, hc]
      simp
    · have hclen : 0 < (loaded.flatMap (fun p => p.comments)).length :=
        List.length_pos.mpr hc
      rw [if_neg hc, if_pos hclen]

/-- Claim C5: the photo counter is seeded at initialization to one more than
the maximum numeric id among loaded photos — 1 when the loaded collection
is empty — and the comment counter analogously from the maximum numeric
comment id across all loaded photos, keeping the fixed floor 100 when no
comments are loaded; from the seeded state (as from any state with a
non-negative counter), every sequence of createPhoto calls yields photo
ids that are strictly increasing as decimal integers in allocation order,
hence pairwise distinct. -/
theorem c5_id_uniqueness (photoUrl : String) (loaded : List Photo)
    (inputs : List CreateInput) (s : DBState)
    (hs : s = initializeCache photoUrl (FetchIndexResult.ok loaded) initialState)
    (hcnt : 0 ≤ s.photoIdCounter) :
    (s.photoIdCounter = if loaded = [] then 1
      else listMaxInt (loaded.map (fun p => jsParseIntOr0 p.id)) + 1) ∧
    (s.commentIdCounter = if loaded.flatMap (fun p => p.comments) = [] then 100
      else listMaxInt ((loaded.flatMap (fun p => p.comments)).map
        (fun c => jsParseIntOr0 c.id)) + 1) ∧
    ((runCreatePhotos s inputs).1.map (fun p => jsParseIntOr0 p.id)).Pairwise
      (fun a b => a < b) ∧
    ((runCreatePhotos s inputs).1.map Photo.id).Nodup := by
  obtain ⟨h1, h2, h3⟩ := initializeCache_seeds photoUrl loaded
  subst hs
  obtain ⟨-, hpair⟩ := runCreatePhotos_ids inputs _ h3 hcnt
  exact ⟨h1, h2, hpair, pairwise_lt_map_nodup hpair⟩

/-- Witness for c5_id_uniqueness: seeding from a one-photo index (photo id
"1" with comment id "100") followed by two createPhoto calls. -/
theorem c5_id_uniqueness_witness :
    ((initializeCache sampleEnv.photoStorageUrl
        (FetchIndexResult.ok sampleStateWithComment.photosCache)
        initialState).photoIdCounter
      = if sampleStateWithComment.photosCache = [] then 1
        else listMaxInt (sampleStateWithComment.photosCache.map
          (fun p => jsParseIntOr0 p.id)) + 1) ∧
    ((initializeCache sampleEnv.photoStorageUrl
        (FetchIndexResult.ok sampleStateWithComment.photosCache)
        initialState).commentIdCounter
      = if sampleStateWithComment.photosCache.flatMap (fun p => p.comments) = [] then 100
        else listMaxInt ((sampleStateWithComment.photosCache.flatMap
          (fun p => p.comments)).map (fun c => jsParseIntOr0 c.id)) + 1) ∧
    ((runCreatePhotos (initializeCache sampleEnv.photoStorageUrl
        (FetchIndexResult.ok sampleStateWithComment.photosCache) initialState)
        [⟨sampleEnv, "1", "alice", "A", "data:image/png;base64,AA==", none⟩,
         ⟨sampleEnv, "2", "bob", "B", "data:image/png;base64,AA==", none⟩]).1.map
      (fun p => jsParseIntOr0 p.id)).Pairwise (fun a b => a < b) ∧
    ((runCreatePhotos (initializeCache sampleEnv.photoStorageUrl
        (FetchIndexResult.ok sampleStateWithComment.photosCache) initialState)
        [⟨sampleEnv, "1", "alice", "A", "data:image/png;base64,AA==", none⟩,
         ⟨sampleEnv, "2", "bob", "B", "data:image/png;base64,AA==", none⟩]).1.map
      Photo.id).Nodup :=
  c5_id_uniqueness sampleEnv.photoStorageUrl sampleStateWithComment.photosCache
    [⟨sampleEnv, "1", "alice", "A", "data:image/png;base64,AA==", none⟩,
     ⟨sampleEnv, "2", "bob", "B", "data:image/png;base64,AA==", none⟩]
    _ rfl (by decide)

end PhotoApp
